import Mathlib

/-!
Verification of the replication-orchestration client in `src/couchdb.js`
(`class CouchDBClient`).

The JavaScript code is shallowly embedded: every method becomes a pure Lean
function.  Remote state that a method reads (the server database listing, the
scheduler job listing, the `_replicator` document store) is passed in as an
explicit argument; remote calls a method issues are returned as explicit data.
Strings are Lean `String`s (JS strings of Unicode code points), and the
`encodeURIComponent` builtin is embedded down to its UTF-8 percent-encoding of
individual characters.
-/

/-! ## Well-known database names (src/couchdb.js lines 5-8) -/

def GLOBAL_CHANGES_DB : String := "_global_changes"

def USERS_DB : String := "_users"

def REPLICATOR_DB : String := "_replicator"

def SCHEDULER_DB : String := "_scheduler"

/-! ## The client value (constructor, src/couchdb.js lines 19-27)

The constructor stores the four fields and derives `instanceUrl` by literal
string concatenation.  The `nano` handle and the `dbConn` cache are modelled
separately where they are used (`dbConn` as explicit state for
`createDocument`). -/

structure CouchDBClient where
  host : String
  port : String
  user : String
  password : String
  instanceUrl : String
  deriving Repr, DecidableEq

/-- Embeds `constructor(host, port, user, password)`:
`this.instanceUrl = 'http://' + user + ':' + password + '@' + host + ':' + port`. -/
def CouchDBClient.make (host port user password : String) : CouchDBClient :=
  { host := host, port := port, user := user, password := password,
    instanceUrl := "http://" ++ user ++ ":" ++ password ++ "@" ++ host ++ ":" ++ port }

/-! ## getDatabases (src/couchdb.js lines 95-106)

`this.nano.db.list()` returns the server enumeration; it is the `db_list`
argument here.  The JS default arguments (`exclude_list = []`,
`exclude_system = true`) are passed explicitly. -/

/-- Embeds `getDatabases({ exclude_list, exclude_system })`:
build `exclude_dbs` (appending the three system names when `exclude_system`)
and filter the server listing by non-membership. -/
def CouchDBClient.getDatabases (db_list : List String)
    (exclude_list : List String) (exclude_system : Bool) : List String :=
  let exclude_dbs :=
    if exclude_system then exclude_list ++ [GLOBAL_CHANGES_DB, USERS_DB, REPLICATOR_DB]
    else exclude_list
  db_list.filter (fun db => !(exclude_dbs.contains db))

/-! ## Theorems about getDatabases -/

/-- C4: with `exclude_system = true` and an empty `exclude_list`,
`getDatabases` never returns `_global_changes`, `_users` or `_replicator`,
but does return `_scheduler` whenever the server enumeration lists it. -/
theorem getDatabases_excludeSystem_defaults (db_list : List String) :
    GLOBAL_CHANGES_DB ∉ CouchDBClient.getDatabases db_list [] true ∧
    USERS_DB ∉ CouchDBClient.getDatabases db_list [] true ∧
    REPLICATOR_DB ∉ CouchDBClient.getDatabases db_list [] true ∧
    (SCHEDULER_DB ∈ db_list → SCHEDULER_DB ∈ CouchDBClient.getDatabases db_list [] true) := by
  refine ⟨?_, ?_, ?_, ?_⟩ <;>
    simp [CouchDBClient.getDatabases, List.mem_filter, GLOBAL_CHANGES_DB, USERS_DB,
      REPLICATOR_DB, SCHEDULER_DB]

/-- Witness for C4 at a concrete server enumeration containing all four
system names and one user database. -/
theorem getDatabases_excludeSystem_defaults_witness :
    SCHEDULER_DB ∈ CouchDBClient.getDatabases
      [GLOBAL_CHANGES_DB, USERS_DB, REPLICATOR_DB, SCHEDULER_DB, "movies"] [] true :=
  (getDatabases_excludeSystem_defaults
    [GLOBAL_CHANGES_DB, USERS_DB, REPLICATOR_DB, SCHEDULER_DB, "movies"]).2.2.2
    (by decide)

/-- C8: for every server enumeration and every `exclude_list`, `getDatabases`
never returns a name contained in `exclude_list`, whatever `exclude_system`. -/
theorem getDatabases_respects_excludeList (db_list exclude_list : List String)
    (exclude_system : Bool) (name : String) (h : name ∈ exclude_list) :
    name ∉ CouchDBClient.getDatabases db_list exclude_list exclude_system := by
  intro hmem
  rcases List.mem_filter.mp hmem with ⟨-, hkeep⟩
  cases exclude_system <;>
    simp_all [CouchDBClient.getDatabases, List.elem_iff]

/-- Witness for C8: the server lists `"foo"` and `exclude_list = ["foo"]`,
with `exclude_system = false`. -/
theorem getDatabases_respects_excludeList_witness :
    "foo" ∉ CouchDBClient.getDatabases ["foo", "bar"] ["foo"] false :=
  getDatabases_respects_excludeList ["foo", "bar"] ["foo"] false "foo" (by decide)

/-- C10: the constructor derives `instanceUrl` by literal concatenation
`'http://' + user + ':' + password + '@' + host + ':' + port` with no
percent-encoding, so credentials holding reserved URL characters are embedded
verbatim and two distinct field tuples can collide on the same URL: the URL
does not round-trip to the original fields. -/
theorem instanceUrl_literal_concat_no_roundtrip :
    (∀ host port user password : String,
      (CouchDBClient.make host port user password).instanceUrl =
        "http://" ++ user ++ ":" ++ password ++ "@" ++ host ++ ":" ++ port) ∧
    (CouchDBClient.make "h" "5984" "a:b" "c").instanceUrl =
      (CouchDBClient.make "h" "5984" "a" "b:c").instanceUrl ∧
    CouchDBClient.make "h" "5984" "a:b" "c" ≠ CouchDBClient.make "h" "5984" "a" "b:c" := by
  refine ⟨fun host port user password => rfl, by decide, by decide⟩

/-! ## encodeURIComponent (JS builtin used at src/couchdb.js line 129)

`encodeURIComponent` leaves the unreserved characters
`A-Z a-z 0-9 - _ . ! ~ * ( )` and the apostrophe untouched and replaces every
other character by the percent-encoding of its UTF-8 bytes, with uppercase
hex digits.  `decodeURIComponent` is its inverse: parse percent escapes into
bytes, then decode the byte sequence as UTF-8. -/

/-- The characters `encodeURIComponent` leaves unescaped, by code point:
`A-Z` (65-90), `a-z` (97-122), `0-9` (48-57), `- _ . ! ~ *` and the
apostrophe (39) and parentheses (40, 41). -/
def isUnreservedURI (c : Char) : Bool :=
  (65 ≤ c.toNat && c.toNat ≤ 90) || (97 ≤ c.toNat && c.toNat ≤ 122) ||
  (48 ≤ c.toNat && c.toNat ≤ 57) ||
  c.toNat = 45 || c.toNat = 95 || c.toNat = 46 || c.toNat = 33 ||
  c.toNat = 126 || c.toNat = 42 || c.toNat = 39 || c.toNat = 40 || c.toNat = 41

/-- Uppercase hex digit for `n < 16`. -/
def hexDigitChar (n : Nat) : Char :=
  if n < 10 then Char.ofNat (48 + n) else Char.ofNat (55 + n)

/-- UTF-8 byte sequence of the code point `n`. -/
def utf8Bytes (n : Nat) : List Nat :=
  if n < 128 then [n]
  else if n < 2048 then [192 + n / 64, 128 + n % 64]
  else if n < 65536 then [224 + n / 4096, 128 + (n / 64) % 64, 128 + n % 64]
  else [240 + n / 262144, 128 + (n / 4096) % 64, 128 + (n / 64) % 64, 128 + n % 64]

/-- Percent escape of one byte: the percent sign (code point 37) followed by
two uppercase hex digits. -/
def percentEncodeByte (b : Nat) : List Char :=
  [Char.ofNat 37, hexDigitChar (b / 16), hexDigitChar (b % 16)]

/-- `encodeURIComponent` on a single character. -/
def encodeURIChar (c : Char) : List Char :=
  if isUnreservedURI c then [c]
  else (utf8Bytes c.toNat).flatMap percentEncodeByte

def encodeURIComponentList (l : List Char) : List Char :=
  l.flatMap encodeURIChar

/-- Embeds the JS builtin `encodeURIComponent`. -/
def encodeURIComponent (s : String) : String :=
  ⟨encodeURIComponentList s.data⟩

/-- Value of a hex digit, accepting both cases (as `decodeURIComponent` does). -/
def hexVal (c : Char) : Option Nat :=
  if 48 ≤ c.toNat ∧ c.toNat ≤ 57 then some (c.toNat - 48)
  else if 65 ≤ c.toNat ∧ c.toNat ≤ 70 then some (c.toNat - 55)
  else if 97 ≤ c.toNat ∧ c.toNat ≤ 102 then some (c.toNat - 87)
  else none

/-- First phase of `decodeURIComponent`: replace every `%XY` escape by the
byte `XY`; an unescaped character stands for its own UTF-8 bytes.  `none` on
a malformed escape. -/
def percentDecodeBytes : List Char → Option (List Nat)
  | [] => some []
  | c :: rest =>
    if c = Char.ofNat 37 then
      match rest with
      | h :: l :: rest2 =>
        match hexVal h, hexVal l with
        | some hv, some lv => (percentDecodeBytes rest2).map (fun bs => (16 * hv + lv) :: bs)
        | _, _ => none
      | _ => none
    else (percentDecodeBytes rest).map (fun bs => utf8Bytes c.toNat ++ bs)

/-- Decode one UTF-8 encoded character from the front of a byte list,
returning it with the remaining bytes; `none` on an invalid prefix. -/
def decodeUtf8Char : List Nat → Option (Char × List Nat)
  | [] => none
  | b :: rest =>
    if b < 128 then some (Char.ofNat b, rest)
    else if b < 192 then none
    else if b < 224 then
      match rest with
      | b1 :: rest1 =>
        if 128 ≤ b1 ∧ b1 < 192 then
          some (Char.ofNat ((b - 192) * 64 + (b1 - 128)), rest1)
        else none
      | [] => none
    else if b < 240 then
      match rest with
      | b1 :: b2 :: rest2 =>
        if (128 ≤ b1 ∧ b1 < 192) ∧ (128 ≤ b2 ∧ b2 < 192) then
          some (Char.ofNat ((b - 224) * 4096 + (b1 - 128) * 64 + (b2 - 128)), rest2)
        else none
      | _ => none
    else if b < 248 then
      match rest with
      | b1 :: b2 :: b3 :: rest3 =>
        if (128 ≤ b1 ∧ b1 < 192) ∧ (128 ≤ b2 ∧ b2 < 192) ∧ (128 ≤ b3 ∧ b3 < 192) then
          some
            (Char.ofNat ((b - 240) * 262144 + (b1 - 128) * 4096 + (b2 - 128) * 64 + (b3 - 128)),
              rest3)
        else none
      | _ => none
    else none

theorem decodeUtf8Char_length (l : List Nat) (c : Char) (rest : List Nat)
    (h : decodeUtf8Char l = some (c, rest)) : rest.length < l.length := by
  match l with
  | [] => simp [decodeUtf8Char] at h
  | b :: r =>
    simp only [decodeUtf8Char] at h
    repeat' split at h
    all_goals simp_all
    all_goals omega

/-- Second phase of `decodeURIComponent`: decode the byte list as UTF-8. -/
def utf8Decode (l : List Nat) : Option (List Char) :=
  match h : decodeUtf8Char l with
  | some (c, rest) =>
    have : rest.length < l.length := decodeUtf8Char_length l c rest h
    (utf8Decode rest).map (fun cs => c :: cs)
  | none => if l = [] then some [] else none
termination_by l.length

/-- Embeds the JS builtin `decodeURIComponent` (as a total function returning
`none` where the builtin throws `URIError`). -/
def decodeURIComponent (s : String) : Option String :=
  (percentDecodeBytes s.data).bind (fun bs => (utf8Decode bs).map (fun cs => ⟨cs⟩))

/-- UTF-8 encoding of a character list. -/
def utf8Encode (l : List Char) : List Nat :=
  l.flatMap (fun c => utf8Bytes c.toNat)

theorem char_toNat_lt (c : Char) : c.toNat < 1114112 := by
  rcases c.valid with h | h
  · exact Nat.lt_trans h (by decide)
  · exact h.2

theorem utf8Bytes_lt_256 (n : Nat) (hn : n < 1114112) : ∀ b ∈ utf8Bytes n, b < 256 := by
  intro b hb
  unfold utf8Bytes at hb
  split at hb
  · simp at hb; omega
  · split at hb
    · simp at hb
      rcases hb with h | h <;> omega
    · split at hb
      · simp at hb
        rcases hb with h | h | h <;> omega
      · simp at hb
        rcases hb with h | h | h | h <;> omega

theorem hexVal_hexDigitChar (n : Nat) (h : n < 16) :
    hexVal (hexDigitChar n) = some n := by
  interval_cases n <;> rfl

theorem percentDecodeBytes_encodeByte (b : Nat) (hb : b < 256) (rest : List Char) :
    percentDecodeBytes (percentEncodeByte b ++ rest) =
      (percentDecodeBytes rest).map (fun bs => b :: bs) := by
  have h1 : b / 16 < 16 := by omega
  have h2 : b % 16 < 16 := by omega
  simp only [percentEncodeByte, List.cons_append, List.nil_append, percentDecodeBytes,
    if_pos rfl, hexVal_hexDigitChar _ h1, hexVal_hexDigitChar _ h2]
  have h3 : 16 * (b / 16) + b % 16 = b := by omega
  rw [h3]
  simp

theorem percentDecodeBytes_flatMap (bs : List Nat) (h : ∀ b ∈ bs, b < 256)
    (rest : List Char) :
    percentDecodeBytes (bs.flatMap percentEncodeByte ++ rest) =
      (percentDecodeBytes rest).map (fun l => bs ++ l) := by
  induction bs with
  | nil => simp
  | cons b bs ih =>
    have hb : b < 256 := h b (by simp)
    have hbs : ∀ x ∈ bs, x < 256 := fun x hx => h x (by simp [hx])
    simp only [List.flatMap_cons, List.append_assoc,
      percentDecodeBytes_encodeByte b hb, ih hbs, Option.map_map]
    rfl

theorem isUnreservedURI_ascii (c : Char) (h : isUnreservedURI c = true) :
    c.toNat < 128 ∧ c.toNat ≠ 37 := by
  simp only [isUnreservedURI, Bool.or_eq_true, Bool.and_eq_true, decide_eq_true_eq] at h
  omega

theorem ne_percent_of_unreserved (c : Char) (h : isUnreservedURI c = true) :
    ¬(c = Char.ofNat 37) := by
  intro hc
  have := (isUnreservedURI_ascii c h).2
  subst hc
  exact this rfl

theorem percentDecodeBytes_cons_ne (c : Char) (rest : List Char)
    (h : ¬(c = Char.ofNat 37)) :
    percentDecodeBytes (c :: rest) =
      (percentDecodeBytes rest).map (fun bs => utf8Bytes c.toNat ++ bs) := by
  match rest with
  | [] => simp [percentDecodeBytes, if_neg h]
  | [x] => simp [percentDecodeBytes, if_neg h]
  | x :: y :: rest2 => simp [percentDecodeBytes, if_neg h]

theorem percentDecodeBytes_encodeList (l : List Char) :
    percentDecodeBytes (encodeURIComponentList l) = some (utf8Encode l) := by
  induction l with
  | nil => rfl
  | cons c l ih =>
    simp only [encodeURIComponentList, List.flatMap_cons] at *
    by_cases hu : isUnreservedURI c = true
    · simp only [encodeURIChar, if_pos hu, List.cons_append, List.nil_append]
      rw [percentDecodeBytes_cons_ne c _ (ne_percent_of_unreserved c hu)]
      simp only [ih, Option.map_some]
      rfl
    · simp only [encodeURIChar, if_neg hu]
      rw [percentDecodeBytes_flatMap _ (utf8Bytes_lt_256 _ (char_toNat_lt c)) _]
      · simp only [ih, Option.map_some]
        rfl

theorem utf8Decode_nil : utf8Decode [] = some [] := by
  rw [utf8Decode]
  rfl

theorem utf8Decode_step (l : List Nat) (c : Char) (rest : List Nat)
    (h : decodeUtf8Char l = some (c, rest)) :
    utf8Decode l = (utf8Decode rest).map (fun cs => c :: cs) := by
  rw [utf8Decode]
  split
  · rename_i c2 rest2 h2
    rw [h] at h2
    cases h2
    rfl
  · rename_i h2
    rw [h] at h2
    cases h2

theorem decodeUtf8Char_low (b : Nat) (h : b < 128) (rest : List Nat) :
    decodeUtf8Char (b :: rest) = some (Char.ofNat b, rest) := by
  simp [decodeUtf8Char, h]

theorem decodeUtf8Char_two (b b1 : Nat) (rest : List Nat)
    (hb : 192 ≤ b ∧ b < 224) (hb1 : 128 ≤ b1 ∧ b1 < 192) :
    decodeUtf8Char (b :: b1 :: rest) =
      some (Char.ofNat ((b - 192) * 64 + (b1 - 128)), rest) := by
  have h1 : ¬(b < 128) := by omega
  have h2 : ¬(b < 192) := by omega
  simp [decodeUtf8Char, h1, h2, hb.2, hb1.1, hb1.2]

theorem decodeUtf8Char_three (b b1 b2 : Nat) (rest : List Nat)
    (hb : 224 ≤ b ∧ b < 240) (hb1 : 128 ≤ b1 ∧ b1 < 192) (hb2 : 128 ≤ b2 ∧ b2 < 192) :
    decodeUtf8Char (b :: b1 :: b2 :: rest) =
      some (Char.ofNat ((b - 224) * 4096 + (b1 - 128) * 64 + (b2 - 128)), rest) := by
  have h1 : ¬(b < 128) := by omega
  have h2 : ¬(b < 192) := by omega
  have h3 : ¬(b < 224) := by omega
  simp [decodeUtf8Char, h1, h2, h3, hb.2, hb1.1, hb1.2, hb2.1, hb2.2]

theorem decodeUtf8Char_four (b b1 b2 b3 : Nat) (rest : List Nat)
    (hb : 240 ≤ b ∧ b < 248) (hb1 : 128 ≤ b1 ∧ b1 < 192) (hb2 : 128 ≤ b2 ∧ b2 < 192)
    (hb3 : 128 ≤ b3 ∧ b3 < 192) :
    decodeUtf8Char (b :: b1 :: b2 :: b3 :: rest) =
      some
        (Char.ofNat ((b - 240) * 262144 + (b1 - 128) * 4096 + (b2 - 128) * 64 + (b3 - 128)),
          rest) := by
  have h1 : ¬(b < 128) := by omega
  have h2 : ¬(b < 192) := by omega
  have h3 : ¬(b < 224) := by omega
  have h4 : ¬(b < 240) := by omega
  simp [decodeUtf8Char, h1, h2, h3, h4, hb.2, hb1.1, hb1.2, hb2.1, hb2.2, hb3.1, hb3.2]

theorem utf8Decode_utf8Bytes (c : Char) (rest : List Nat) :
    utf8Decode (utf8Bytes c.toNat ++ rest) = (utf8Decode rest).map (fun cs => c :: cs) := by
  have hv := char_toNat_lt c
  by_cases h1 : c.toNat < 128
  · rw [show utf8Bytes c.toNat = [c.toNat] from by simp [utf8Bytes, h1]]
    simp only [List.cons_append, List.nil_append]
    rw [utf8Decode_step _ _ _ (decodeUtf8Char_low _ h1 _)]
    simp only [Char.ofNat_toNat]
  · by_cases h2 : c.toNat < 2048
    · rw [show utf8Bytes c.toNat = [192 + c.toNat / 64, 128 + c.toNat % 64] from by
        simp [utf8Bytes, h1, h2]]
      simp only [List.cons_append, List.nil_append]
      rw [utf8Decode_step _ _ _ (decodeUtf8Char_two _ _ _ (by omega) (by omega))]
      have he : (192 + c.toNat / 64 - 192) * 64 + (128 + c.toNat % 64 - 128) = c.toNat := by
        omega
      simp only [he, Char.ofNat_toNat]
    · by_cases h3 : c.toNat < 65536
      · rw [show utf8Bytes c.toNat =
            [224 + c.toNat / 4096, 128 + (c.toNat / 64) % 64, 128 + c.toNat % 64] from by
          simp [utf8Bytes, h1, h2, h3]]
        simp only [List.cons_append, List.nil_append]
        rw [utf8Decode_step _ _ _
          (decodeUtf8Char_three _ _ _ _ (by omega) (by omega) (by omega))]
        have he : (224 + c.toNat / 4096 - 224) * 4096 + (128 + (c.toNat / 64) % 64 - 128) * 64 +
            (128 + c.toNat % 64 - 128) = c.toNat := by omega
        simp only [he, Char.ofNat_toNat]
      · rw [show utf8Bytes c.toNat =
            [240 + c.toNat / 262144, 128 + (c.toNat / 4096) % 64, 128 + (c.toNat / 64) % 64,
              128 + c.toNat % 64] from by simp [utf8Bytes, h1, h2, h3]]
        simp only [List.cons_append, List.nil_append]
        rw [utf8Decode_step _ _ _
          (decodeUtf8Char_four _ _ _ _ _ (by omega) (by omega) (by omega) (by omega))]
        have he : (240 + c.toNat / 262144 - 240) * 262144 +
            (128 + (c.toNat / 4096) % 64 - 128) * 4096 +
            (128 + (c.toNat / 64) % 64 - 128) * 64 + (128 + c.toNat % 64 - 128) = c.toNat := by
          omega
        simp only [he, Char.ofNat_toNat]

theorem utf8Decode_utf8Encode (l : List Char) : utf8Decode (utf8Encode l) = some l := by
  induction l with
  | nil => exact utf8Decode_nil
  | cons c l ih =>
    simp only [utf8Encode, List.flatMap_cons] at *
    rw [utf8Decode_utf8Bytes c _, ih]
    rfl

/-- Round trip at the heart of C5: percent-decoding an
`encodeURIComponent`-encoded string restores it exactly. -/
theorem decodeURIComponent_encodeURIComponent (s : String) :
    decodeURIComponent (encodeURIComponent s) = some s := by
  show (percentDecodeBytes (encodeURIComponentList s.data)).bind _ = some s
  rw [percentDecodeBytes_encodeList]
  show (utf8Decode (utf8Encode s.data)).map _ = some s
  rw [utf8Decode_utf8Encode]
  rfl

/-! ## startReplication (src/couchdb.js lines 122-133)

`this.nano.db.replication.enable(sourceDb, db, { create_target: true,
continuous })` is the replication-enable primitive; the embedding returns the
list of remote calls the method issues next to its result, so "zero remote
calls" is expressible.  The guard compares `host` and `port` with JS strict
equality on strings, which is Lean `String` equality.  The thrown
`Error('Can t replicate from/to the same server')` (apostrophe of the JS
literal omitted from the Lean string) is the `Except.error` case. -/

structure EnableCall where
  source : String
  target : String
  create_target : Bool
  continuous : Bool
  deriving Repr, DecidableEq

inductive RemoteCall where
  | replicationEnable : EnableCall → RemoteCall
  deriving Repr, DecidableEq

def selfReplicationErrorMsg : String := "Cant replicate from/to the same server"

/-- Embeds `startReplication(sourceInstance, db, continuous)` on the target
instance `self` (the JS `this`): guard against equal (host, port), otherwise
build `sourceDb = sourceInstance.instanceUrl + '/' + encodeURIComponent(db)`
and issue the enable call. -/
def CouchDBClient.startReplication (self sourceInstance : CouchDBClient) (db : String)
    (continuous : Bool) : Except String EnableCall × List RemoteCall :=
  if self.host = sourceInstance.host ∧ self.port = sourceInstance.port then
    (Except.error selfReplicationErrorMsg, [])
  else
    let sourceDb := sourceInstance.instanceUrl ++ "/" ++ encodeURIComponent db
    (Except.ok
        { source := sourceDb, target := db, create_target := true, continuous := continuous },
      [RemoteCall.replicationEnable
        { source := sourceDb, target := db, create_target := true, continuous := continuous }])

/-- C1: whenever the two instances agree on host and port — credentials and
database name arbitrary — `startReplication` fails locally with the
self-replication error and issues zero remote calls. -/
theorem startReplication_self_is_local_error (self sourceInstance : CouchDBClient)
    (db : String) (continuous : Bool)
    (hhost : self.host = sourceInstance.host) (hport : self.port = sourceInstance.port) :
    (self.startReplication sourceInstance db continuous).1 =
      Except.error selfReplicationErrorMsg ∧
    (self.startReplication sourceInstance db continuous).2 = [] := by
  simp [CouchDBClient.startReplication, hhost, hport]

/-- Witness for C1: equal (host, port), different credentials and an
arbitrary database name. -/
theorem startReplication_self_is_local_error_witness :
    ((CouchDBClient.make "localhost" "5984" "u1" "p1").startReplication
        (CouchDBClient.make "localhost" "5984" "u2" "p2") "movies" true).1 =
      Except.error selfReplicationErrorMsg ∧
    ((CouchDBClient.make "localhost" "5984" "u1" "p1").startReplication
        (CouchDBClient.make "localhost" "5984" "u2" "p2") "movies" true).2 = [] :=
  startReplication_self_is_local_error _ _ "movies" true rfl rfl

/-- C5: for a database name containing a character that needs URL escaping
(and instances that differ on host or port, so that the call is issued), the
source URL handed to the replication-enable call is the source instance URL
plus a slash plus the percent-encoded name, and percent-decoding the encoded
segment restores the original name exactly. -/
theorem startReplication_encodes_sourceDb (self sourceInstance : CouchDBClient)
    (db : String) (continuous : Bool)
    (hne : ¬(self.host = sourceInstance.host ∧ self.port = sourceInstance.port))
    (hesc : ∃ c ∈ db.data, isUnreservedURI c = false) :
    (self.startReplication sourceInstance db continuous).2 =
      [RemoteCall.replicationEnable
        { source := sourceInstance.instanceUrl ++ "/" ++ encodeURIComponent db,
          target := db, create_target := true, continuous := continuous }] ∧
    decodeURIComponent (encodeURIComponent db) = some db := by
  refine ⟨?_, decodeURIComponent_encodeURIComponent db⟩
  simp [CouchDBClient.startReplication, hne]

/-- Witness for C5: distinct hosts and the database name `"a/b"`, whose slash
requires escaping. -/
theorem startReplication_encodes_sourceDb_witness :
    ((CouchDBClient.make "h1" "5984" "u" "p").startReplication
        (CouchDBClient.make "h2" "5984" "u" "p") "a/b" true).2 =
      [RemoteCall.replicationEnable
        { source := (CouchDBClient.make "h2" "5984" "u" "p").instanceUrl ++ "/" ++
            encodeURIComponent "a/b",
          target := "a/b", create_target := true, continuous := true }] ∧
    decodeURIComponent (encodeURIComponent "a/b") = some "a/b" :=
  startReplication_encodes_sourceDb _ _ "a/b" true
    (by intro h; exact absurd h.1 (by decide))
    ⟨Char.ofNat 47, by decide, by decide⟩

/-! ## getRunningReplicationJobs (src/couchdb.js lines 150-161)

`this.nano.request({ db: SCHEDULER_DB, path: 'jobs' })` returns the scheduler
response, whose `jobs` array is the `sched` argument; `replicator.get` on the
`_replicator` database is the `store` argument, with `none` for a fetch that
fails (rejected promise).  The loop awaits each fetch in sequence and pushes
the document; a failed `await` aborts the whole method, and the final
`Promise.all` over a list of already-awaited documents is the identity. -/

structure SchedulerJob where
  doc_id : String
  deriving Repr, DecidableEq

structure ReplicatorDoc where
  docId : String
  docRev : String
  deriving Repr, DecidableEq

/-- Embeds the fetch loop of `getRunningReplicationJobs`. -/
def CouchDBClient.getRunningReplicationJobs (store : String → Option ReplicatorDoc) :
    List SchedulerJob → Option (List ReplicatorDoc)
  | [] => some []
  | sJob :: rest =>
    match store sJob.doc_id with
    | none => none
    | some repJob =>
      (CouchDBClient.getRunningReplicationJobs store rest).map (fun docs => repJob :: docs)

/-- C2: when the scheduler reports jobs with pairwise distinct doc ids, each
resolvable in the replicator store (CouchDB `get` returns the document stored
under the requested id, so its `_id` equals the id asked for), the call
returns exactly as many documents as there are jobs, their ids are exactly
the scheduler doc ids, without duplicates — a bijection between job ids and
returned document ids. -/
theorem getRunningReplicationJobs_bijection (store : String → Option ReplicatorDoc)
    (sched : List SchedulerJob)
    (hres : ∀ j ∈ sched, ∃ d, store j.doc_id = some d ∧ d.docId = j.doc_id)
    (hdist : (sched.map (fun j => j.doc_id)).Nodup) :
    ∃ docs, CouchDBClient.getRunningReplicationJobs store sched = some docs ∧
      docs.length = sched.length ∧
      docs.map (fun d => d.docId) = sched.map (fun j => j.doc_id) ∧
      (docs.map (fun d => d.docId)).Nodup := by
  induction sched with
  | nil => exact ⟨[], rfl, rfl, rfl, List.nodup_nil⟩
  | cons j rest ih =>
    obtain ⟨d, hd, hid⟩ := hres j (List.mem_cons_self j rest)
    obtain ⟨docs, hdocs, hlen, hmap, -⟩ :=
      ih (fun x hx => hres x (List.mem_cons_of_mem j hx)) (List.Nodup.of_cons hdist)
    refine ⟨d :: docs, ?_, by simp [hlen], ?_, ?_⟩
    · simp [CouchDBClient.getRunningReplicationJobs, hd, hdocs]
    · simp [hid, hmap]
    · rw [List.map_cons, hid, hmap]
      exact hdist

/-- Witness for C2: two scheduler jobs with distinct ids, both resolvable. -/
theorem getRunningReplicationJobs_bijection_witness :
    ∃ docs,
      CouchDBClient.getRunningReplicationJobs
        (fun i => if i = "ra" then some ⟨"ra", "1-a"⟩
          else if i = "rb" then some ⟨"rb", "1-b"⟩ else none)
        [⟨"ra"⟩, ⟨"rb"⟩] = some docs ∧
      docs.length = 2 ∧
      docs.map (fun d => d.docId) = ["ra", "rb"] ∧
      (docs.map (fun d => d.docId)).Nodup := by
  have h := getRunningReplicationJobs_bijection
    (fun i => if i = "ra" then some ⟨"ra", "1-a"⟩
      else if i = "rb" then some ⟨"rb", "1-b"⟩ else none)
    [⟨"ra"⟩, ⟨"rb"⟩]
    (by
      intro j hj
      rcases List.mem_cons.mp hj with h1 | h1
      · exact ⟨⟨"ra", "1-a"⟩, by rw [h1]; rfl, by rw [h1]⟩
      · rcases List.mem_cons.mp h1 with h2 | h2
        · exact ⟨⟨"rb", "1-b"⟩, by rw [h2]; rfl, by rw [h2]⟩
        · cases h2)
    (by decide)
  simpa using h

/-- C3: if any scheduler entry references a doc id whose fetch from the
replicator store fails, the whole call fails — no partial list is returned. -/
theorem getRunningReplicationJobs_fails_whole (store : String → Option ReplicatorDoc)
    (sched : List SchedulerJob) (j : SchedulerJob) (hj : j ∈ sched)
    (hfail : store j.doc_id = none) :
    CouchDBClient.getRunningReplicationJobs store sched = none := by
  induction sched with
  | nil => cases hj
  | cons x rest ih =>
    rcases List.mem_cons.mp hj with h1 | h1
    · subst h1
      simp [CouchDBClient.getRunningReplicationJobs, hfail]
    · cases hx : store x.doc_id with
      | none => simp [CouchDBClient.getRunningReplicationJobs, hx]
      | some d => simp [CouchDBClient.getRunningReplicationJobs, hx, ih h1]

/-- Witness for C3: the second of two scheduler entries is not resolvable. -/
theorem getRunningReplicationJobs_fails_whole_witness :
    CouchDBClient.getRunningReplicationJobs
      (fun i => if i = "ra" then some ⟨"ra", "1-a"⟩ else none)
      [⟨"ra"⟩, ⟨"rb"⟩] = none :=
  getRunningReplicationJobs_fails_whole
    (fun i => if i = "ra" then some ⟨"ra", "1-a"⟩ else none)
    [⟨"ra"⟩, ⟨"rb"⟩] ⟨"rb"⟩ (by decide) (by decide)

/-- C9: when every fetch succeeds, the returned list has one document per
scheduler entry and the i-th returned document is exactly the store's
document for the i-th scheduler entry — documents are fetched and appended
one at a time, in the scheduler's order. -/
theorem getRunningReplicationJobs_order (store : String → Option ReplicatorDoc)
    (sched : List SchedulerJob)
    (hres : ∀ j ∈ sched, (store j.doc_id).isSome) :
    ∃ docs, CouchDBClient.getRunningReplicationJobs store sched = some docs ∧
      docs.length = sched.length ∧
      ∀ i (hi : i < sched.length) (hd : i < docs.length),
        store (sched.get ⟨i, hi⟩).doc_id = some (docs.get ⟨i, hd⟩) := by
  induction sched with
  | nil => exact ⟨[], rfl, rfl, fun i hi => absurd hi (Nat.not_lt_zero i)⟩
  | cons j rest ih =>
    cases hd : store j.doc_id with
    | none =>
      have := hres j (List.mem_cons_self j rest)
      rw [hd] at this
      cases this
    | some d =>
      obtain ⟨docs, hdocs, hlen, hidx⟩ := ih (fun x hx => hres x (List.mem_cons_of_mem j hx))
      refine ⟨d :: docs, ?_, by simp [hlen], ?_⟩
      · simp [CouchDBClient.getRunningReplicationJobs, hd, hdocs]
      · intro i hi hdl
        match i with
        | 0 => simpa using hd
        | Nat.succ k =>
          exact hidx k (Nat.lt_of_succ_lt_succ hi) (Nat.lt_of_succ_lt_succ hdl)

/-- Witness for C9: two resolvable scheduler entries, checked positionally. -/
theorem getRunningReplicationJobs_order_witness :
    ∃ docs,
      CouchDBClient.getRunningReplicationJobs
        (fun i => if i = "ra" then some ⟨"ra", "1-a"⟩
          else if i = "rb" then some ⟨"rb", "1-b"⟩ else none)
        [⟨"ra"⟩, ⟨"rb"⟩] = some docs ∧
      docs.length = 2 ∧
      ∀ i (hi : i < ([⟨"ra"⟩, ⟨"rb"⟩] : List SchedulerJob).length) (hd : i < docs.length),
        (fun s => if s = "ra" then some (⟨"ra", "1-a"⟩ : ReplicatorDoc)
          else if s = "rb" then some ⟨"rb", "1-b"⟩ else none)
            (([⟨"ra"⟩, ⟨"rb"⟩] : List SchedulerJob).get ⟨i, hi⟩).doc_id =
          some (docs.get ⟨i, hd⟩) := by
  have h := getRunningReplicationJobs_order
    (fun i => if i = "ra" then some ⟨"ra", "1-a"⟩
      else if i = "rb" then some ⟨"rb", "1-b"⟩ else none)
    [⟨"ra"⟩, ⟨"rb"⟩]
    (by
      intro j hj
      rcases List.mem_cons.mp hj with h1 | h1
      · rw [h1]; decide
      · rcases List.mem_cons.mp h1 with h2 | h2
        · rw [h2]; decide
        · cases h2)
  simpa using h

/-! ## createDocument and the dbConn cache (src/couchdb.js lines 79-88)

`this.dbConn` starts as `{}` in the constructor and is threaded here as
explicit state, an association list keyed by database name
(`hasOwnProperty` = lookup succeeds, `this.dbConn[dbName] = db` = add the
binding).  `this.nano.use(dbName)` returns a scoped handle determined by the
name alone (stateless connection configuration); the state counts its
invocations so that "call count to the underlying connection-open operation"
is expressible.  `db.insert(doc, id)` is returned as a call record. -/

structure DbHandle where
  dbName : String
  deriving Repr, DecidableEq

/-- `this.nano.use(dbName)`: a scoped handle for the database name. -/
def nanoUse (dbName : String) : DbHandle :=
  { dbName := dbName }

structure ClientState where
  dbConn : List (String × DbHandle)
  useCalls : Nat
  deriving Repr, DecidableEq

/-- The client state right after the constructor: `this.dbConn = {}`. -/
def ClientState.fresh : ClientState :=
  { dbConn := [], useCalls := 0 }

structure InsertCall where
  handle : DbHandle
  doc : String
  docId : String
  deriving Repr, DecidableEq

/-- Embeds `createDocument(dbName, doc, id)`: reuse the cached handle when
`dbName` is a key of `dbConn`, otherwise open a handle with `nano.use` and
cache it; then insert through the handle. -/
def CouchDBClient.createDocument (s : ClientState) (dbName doc docId : String) :
    InsertCall × ClientState :=
  match s.dbConn.lookup dbName with
  | some db => ({ handle := db, doc := doc, docId := docId }, s)
  | none =>
    let db := nanoUse dbName
    ({ handle := db, doc := doc, docId := docId },
      { dbConn := (dbName, db) :: s.dbConn, useCalls := s.useCalls + 1 })

/-- Entries of the dbConn cache are never evicted or replaced by a
`createDocument` call: every existing binding still resolves identically. -/
theorem createDocument_preserves_cache (s : ClientState) (dbName doc docId : String)
    (k : String) (h : DbHandle) (hk : s.dbConn.lookup k = some h) :
    (CouchDBClient.createDocument s dbName doc docId).2.dbConn.lookup k = some h := by
  unfold CouchDBClient.createDocument
  cases hl : s.dbConn.lookup dbName with
  | some db => exact hk
  | none =>
    by_cases hkd : k = dbName
    · rw [hkd] at hk
      rw [hk] at hl
      cases hl
    · have hb : (k == dbName) = false := beq_eq_false_iff_ne.mpr hkd
      simp [List.lookup, hb, hk]

/-- C6: starting from any state whose cache has no entry for `dbName`, two
consecutive `createDocument` calls for `dbName` invoke the connection-open
operation exactly once; the second call reuses the handle cached by the
first, changes no state, and both calls preserve every pre-existing cache
binding. -/
theorem createDocument_twice_opens_once (s : ClientState) (dbName doc1 id1 doc2 id2 : String)
    (habs : s.dbConn.lookup dbName = none) :
    ((CouchDBClient.createDocument
        (CouchDBClient.createDocument s dbName doc1 id1).2 dbName doc2 id2).2.useCalls =
      s.useCalls + 1) ∧
    ((CouchDBClient.createDocument
        (CouchDBClient.createDocument s dbName doc1 id1).2 dbName doc2 id2).1.handle =
      (CouchDBClient.createDocument s dbName doc1 id1).1.handle) ∧
    ((CouchDBClient.createDocument
        (CouchDBClient.createDocument s dbName doc1 id1).2 dbName doc2 id2).2 =
      (CouchDBClient.createDocument s dbName doc1 id1).2) ∧
    (∀ k h, s.dbConn.lookup k = some h →
      (CouchDBClient.createDocument
        (CouchDBClient.createDocument s dbName doc1 id1).2 dbName doc2 id2).2.dbConn.lookup k =
        some h) := by
  refine ⟨?_, ?_, ?_, fun k h hk =>
    createDocument_preserves_cache _ dbName doc2 id2 k h
      (createDocument_preserves_cache s dbName doc1 id1 k h hk)⟩ <;>
    simp [CouchDBClient.createDocument, habs, List.lookup]

/-- Witness for C6: a fresh client and two inserts into `"movies"`. -/
theorem createDocument_twice_opens_once_witness :
    ((CouchDBClient.createDocument
        (CouchDBClient.createDocument ClientState.fresh "movies" "d1" "i1").2
        "movies" "d2" "i2").2.useCalls = ClientState.fresh.useCalls + 1) ∧
    ((CouchDBClient.createDocument
        (CouchDBClient.createDocument ClientState.fresh "movies" "d1" "i1").2
        "movies" "d2" "i2").1.handle =
      (CouchDBClient.createDocument ClientState.fresh "movies" "d1" "i1").1.handle) ∧
    ((CouchDBClient.createDocument
        (CouchDBClient.createDocument ClientState.fresh "movies" "d1" "i1").2
        "movies" "d2" "i2").2 =
      (CouchDBClient.createDocument ClientState.fresh "movies" "d1" "i1").2) ∧
    (∀ k h, ClientState.fresh.dbConn.lookup k = some h →
      (CouchDBClient.createDocument
        (CouchDBClient.createDocument ClientState.fresh "movies" "d1" "i1").2
        "movies" "d2" "i2").2.dbConn.lookup k = some h) :=
  createDocument_twice_opens_once ClientState.fresh "movies" "d1" "i1" "d2" "i2" rfl

/-! ## getDesignDocs (src/couchdb.js lines 33-36)

`db.list({ startkey: '_design/', endkey: '_design0', include_docs: true })`
is CouchDB `_all_docs` over the database with a key range and full bodies.
The range semantics belongs to the CouchDB server, not to this repository:
`_all_docs` compares document ids by raw (byte-wise) collation and, since the
code does not pass `inclusive_end: false`, the end key is INCLUSIVE
(`inclusive_end` defaults to `true` in the CouchDB API).  The database is the
`store` argument, a list of documents in server enumeration order, each
carrying its body (`include_docs: true` keeps bodies in the rows). -/

structure StoredDoc where
  key : String
  body : String
  deriving Repr, DecidableEq

/-- Byte-wise (code-point) lexicographic order on keys, the `_all_docs` raw
collation.  UTF-8 byte order agrees with code-point order. -/
def charListLe : List Char → List Char → Bool
  | [], _ => true
  | _ :: _, [] => false
  | a :: as, b :: bs =>
    if a.toNat < b.toNat then true
    else if a.toNat = b.toNat then charListLe as bs
    else false

def keyLe (a b : String) : Bool :=
  charListLe a.data b.data

/-- Strict version of `keyLe`, for stating the half-open range of the claim. -/
def charListLt : List Char → List Char → Bool
  | [], [] => false
  | [], _ :: _ => true
  | _ :: _, [] => false
  | a :: as, b :: bs =>
    if a.toNat < b.toNat then true
    else if a.toNat = b.toNat then charListLt as bs
    else false

def keyLt (a b : String) : Bool :=
  charListLt a.data b.data

/-- CouchDB `_all_docs` with a `startkey`/`endkey` range and
`include_docs: true`: the stored documents whose id lies in
`[startkey, endkey]`, end key included. -/
def allDocsRange (store : List StoredDoc) (startkey endkey : String) : List StoredDoc :=
  store.filter (fun d => keyLe startkey d.key && keyLe d.key endkey)

/-- Embeds `getDesignDocs(dbName)`:
`db.list({ startkey: '_design/', endkey: '_design0', include_docs: true })`. -/
def CouchDBClient.getDesignDocs (store : List StoredDoc) : List StoredDoc :=
  allDocsRange store "_design/" "_design0"

/-- C7 counterexample: a document whose id is exactly `_design0` is returned
by `getDesignDocs` although `_design0` is outside the half-open range
`["_design/", "_design0")` — the code's `endkey` is inclusive, so the upper
bound is NOT excluded. -/
theorem getDesignDocs_upper_bound_not_excluded :
    (⟨"_design0", "body"⟩ : StoredDoc) ∈
      CouchDBClient.getDesignDocs [⟨"_design0", "body"⟩] ∧
    ¬(keyLe "_design/" "_design0" = true ∧ keyLt "_design0" "_design0" = true) := by
  decide

/-- C7 amended: `getDesignDocs` returns exactly the documents whose key lies
in the CLOSED range `["_design/", "_design0"]` — both bounds included — with
full document bodies (each returned element is the stored document itself). -/
theorem getDesignDocs_closed_range (store : List StoredDoc) (d : StoredDoc) :
    d ∈ CouchDBClient.getDesignDocs store ↔
      d ∈ store ∧ keyLe "_design/" d.key = true ∧ keyLe d.key "_design0" = true := by
  simp [CouchDBClient.getDesignDocs, allDocsRange, List.mem_filter, and_assoc]
